import Mathlib

/-!
Verification of the cluster-resolution and kubeconfig-synthesis logic of
google-github-actions/get-gke-credentials (src/client.ts).

The TypeScript source is embedded shallowly:

* Strings are Lean `String`s; character-level work happens on `List Char`.
* JavaScript regular-expression matching (the two anchored patterns
  `clusterResourceNamePattern` and `membershipResourceNamePattern`) is
  implemented with explicit greedy backtracking, mirroring the JS engine:
  each `(.+)` group tries the longest candidate first, `.` excludes the
  four JS line terminators, and the `i` flag folds ASCII letters only
  (which is exactly what a non-`u` JS regex does for ASCII pattern
  characters).
* `throw new Error(...)` becomes `Except.error (JsError.err ...)`; a
  JavaScript runtime `TypeError` from reading a property of `undefined`
  becomes `Except.error (JsError.typeError ...)`.
* Fields that can be absent in the runtime JSON payload are `Option`s,
  and the YAML serializer's behaviour of dropping `undefined`-valued map
  entries is reflected by storing such entries as `none`.
-/

namespace GKE

/-! ### JavaScript string primitives -/

/-- The JavaScript whitespace class used by `String.prototype.trim`:
space separators, tab, line terminators, NBSP, BOM and the Unicode
space-separator block. -/
def isJsWS (c : Char) : Bool :=
  c = ' ' || c = '\t' || c = '\n' || c = '\r' ||
  c = '\u000B' || c = '\u000C' || c = '\u00A0' || c = '\u1680' ||
  c = '\u2000' || c = '\u2001' || c = '\u2002' || c = '\u2003' ||
  c = '\u2004' || c = '\u2005' || c = '\u2006' || c = '\u2007' ||
  c = '\u2008' || c = '\u2009' || c = '\u200A' || c = '\u2028' ||
  c = '\u2029' || c = '\u202F' || c = '\u205F' || c = '\u3000' ||
  c = '\uFEFF'

/-- Drop leading JS whitespace. -/
def dropLeadWS (l : List Char) : List Char := l.dropWhile isJsWS

/-- Drop trailing JS whitespace. -/
def dropTrailWS (l : List Char) : List Char :=
  (l.reverse.dropWhile isJsWS).reverse

/-- `String.prototype.trim` on a character list. -/
def trimL (l : List Char) : List Char := dropTrailWS (dropLeadWS l)

/-- `String.prototype.trim`. -/
def jsTrim (s : String) : String := String.mk (trimL s.data)

/-- Does the list contain a `'/'`?  (`name.includes('/')` for the one
character that matters to the parsers.) -/
def hasSlash (l : List Char) : Bool := l.any (fun c => c = '/')

/-! ### Case-insensitive matching (JS `i` flag, non-`u` mode)

For an ASCII pattern character, a non-`u` JS regex canonicalizes both
sides with ASCII-only upper/lower casing; non-ASCII input characters such
as the Kelvin sign do not match ASCII letters.  ASCII-only lowercasing is
therefore the exact semantics. -/

/-- ASCII-only lowercasing. -/
def lowerAscii : Char → Char
  | 'A' => 'a' | 'B' => 'b' | 'C' => 'c' | 'D' => 'd' | 'E' => 'e'
  | 'F' => 'f' | 'G' => 'g' | 'H' => 'h' | 'I' => 'i' | 'J' => 'j'
  | 'K' => 'k' | 'L' => 'l' | 'M' => 'm' | 'N' => 'n' | 'O' => 'o'
  | 'P' => 'p' | 'Q' => 'q' | 'R' => 'r' | 'S' => 's' | 'T' => 't'
  | 'U' => 'u' | 'V' => 'v' | 'W' => 'w' | 'X' => 'x' | 'Y' => 'y'
  | 'Z' => 'z'
  | c => c

/-- Case-insensitive character comparison. -/
def ciEq (a b : Char) : Bool := lowerAscii a = lowerAscii b

/-- Strip a literal pattern prefix case-insensitively, returning the rest
of the input on success. -/
def ciStrip : List Char → List Char → Option (List Char)
  | [], cs => some cs
  | _ :: _, [] => none
  | l :: ls, c :: cs => if ciEq c l then ciStrip ls cs else none

/-- The character class of `.` in a JS regex without the `s` flag: any
character except the four line terminators. -/
def dotChar (c : Char) : Bool :=
  !(c = '\n' || c = '\r' || c = '\u2028' || c = '\u2029')

/-- All characters acceptable to `.`. -/
def dotStr (l : List Char) : Bool := l.all dotChar

/-- A trailing anchored group `(.+)$`: succeeds iff the whole rest is a
non-empty run of `.`-characters, and captures it. -/
def matchTail (cs : List Char) : Option (List Char) :=
  if !cs.isEmpty && dotStr cs then some cs else none

/-- Greedy matching of `(.+)` followed by a continuation `k`: try the
longest candidate capture first, exactly as the backtracking JS engine
does.  `n` is the length of the candidate still being tried. -/
def greedyAux (cs : List Char) (k : List Char → Option α) : Nat → Option (List Char × α)
  | 0 => none
  | n + 1 =>
    if dotStr (cs.take (n + 1)) then
      match k (cs.drop (n + 1)) with
      | some a => some (cs.take (n + 1), a)
      | none => greedyAux cs k n
    else greedyAux cs k n

/-- Greedy `(.+)` group with continuation `k`. -/
def greedy (cs : List Char) (k : List Char → Option α) : Option (List Char × α) :=
  greedyAux cs k cs.length

/-! ### The two resource-name patterns -/

/-- The literal `projects/`. -/
def litProjects : List Char := ['p', 'r', 'o', 'j', 'e', 'c', 't', 's', '/']

/-- The literal `/locations/`. -/
def litLocations : List Char :=
  ['/', 'l', 'o', 'c', 'a', 't', 'i', 'o', 'n', 's', '/']

/-- The literal `/clusters/`. -/
def litClusters : List Char := ['/', 'c', 'l', 'u', 's', 't', 'e', 'r', 's', '/']

/-- The literal `/memberships/`. -/
def litMemberships : List Char :=
  ['/', 'm', 'e', 'm', 'b', 'e', 'r', 's', 'h', 'i', 'p', 's', '/']

/-- The literal `/gkeMemberships/`. -/
def litGkeMemberships : List Char :=
  ['/', 'g', 'k', 'e', 'M', 'e', 'm', 'b', 'e', 'r', 's', 'h', 'i', 'p', 's', '/']

/-- The letters of `locations` (the `/locations/` literal is
`'/' :: letsLocations ++ ['/']`). -/
def letsLocations : List Char := ['l', 'o', 'c', 'a', 't', 'i', 'o', 'n', 's']

/-- The letters of `clusters`. -/
def letsClusters : List Char := ['c', 'l', 'u', 's', 't', 'e', 'r', 's']

/-- The letters of `memberships`. -/
def letsMemberships : List Char := ['m', 'e', 'm', 'b', 'e', 'r', 's', 'h', 'i', 'p', 's']

/-- The letters of `gkeMemberships`. -/
def letsGkeMemberships : List Char :=
  ['g', 'k', 'e', 'M', 'e', 'm', 'b', 'e', 'r', 's', 'h', 'i', 'p', 's']

/-- The suffix `/clusters/(.+)$` of the cluster pattern. -/
def clustersTail (cs : List Char) : Option (List Char) :=
  (ciStrip litClusters cs).bind matchTail

/-- The suffix `/(?:gkeMemberships|memberships)/(.+)$` of the membership
pattern.  The JS engine tries the alternatives left to right and
backtracks into the alternation if the tail group fails. -/
def collTail (cs : List Char) : Option (List Char) :=
  match ciStrip litGkeMemberships cs with
  | some r =>
    match matchTail r with
    | some m => some m
    | none => (ciStrip litMemberships cs).bind matchTail
  | none => (ciStrip litMemberships cs).bind matchTail

/-- The part `/locations/(.+)<T>` of both patterns: strip the literal
`/locations/`, then match the greedy location group whose continuation
`T` is the rest of the pattern. -/
def locTail (T : List Char → Option (List Char)) (s1 : List Char) :
    Option (List Char × List Char) :=
  (ciStrip litLocations s1).bind (fun r2 => greedy r2 T)

/-- `^projects/(.+)/locations/(.+)/clusters/(.+)$` with the `i` flag:
the match result is the triple of captured groups. -/
def clusterMatchL (cs : List Char) : Option (List Char × List Char × List Char) :=
  match ciStrip litProjects cs with
  | none => none
  | some r1 =>
    match greedy r1 (locTail clustersTail) with
    | some (p, (l, c)) => some (p, l, c)
    | none => none

/-- `^projects/(.+)/locations/(.+)/(?:gkeMemberships|memberships)/(.+)$`
with the `i` flag. -/
def membershipMatchL (cs : List Char) : Option (List Char × List Char × List Char) :=
  match ciStrip litProjects cs with
  | none => none
  | some r1 =>
    match greedy r1 (locTail collTail) with
    | some (p, (l, m)) => some (p, l, m)
    | none => none

/-! ### Errors and parsed names -/

/-- A JavaScript exception: an explicitly thrown `Error`, or a runtime
`TypeError` (reading a property of `undefined`). -/
inductive JsError where
  | err (msg : String)
  | typeError (msg : String)
deriving DecidableEq, Repr

deriving instance DecidableEq for Except

/-- Result of `ClusterClient.parseResourceName`. -/
structure ResourceName where
  projectID : String
  location : String
  id : String
deriving DecidableEq, Repr

/-- Result of `ClusterClient.parseMembershipName`. -/
structure MembershipName where
  projectID : String
  location : String
  membershipName : String
deriving DecidableEq, Repr

/-- `ClusterClient.parseResourceName` (client.ts lines 76-104): trim;
empty input fails; a slash-free input becomes a bare id; otherwise the
input must match the cluster pattern. -/
def parseResourceName (name : String) : Except JsError ResourceName :=
  if (jsTrim name).data.isEmpty then
    .error (.err "Failed to parse cluster name: value is the empty string")
  else if !hasSlash (jsTrim name).data then
    .ok ⟨"", "", jsTrim name⟩
  else
    match clusterMatchL (jsTrim name).data with
    | some (p, l, c) => .ok ⟨String.mk p, String.mk l, String.mk c⟩
    | none =>
      .error (.err ("Failed to parse cluster name \"" ++ jsTrim name ++ "\": invalid pattern"))

/-- `ClusterClient.parseMembershipName` (client.ts lines 113-134): trim;
empty input fails; otherwise the input must match the membership
pattern. -/
def parseMembershipName (name : String) : Except JsError MembershipName :=
  if (jsTrim name).data.isEmpty then
    .error (.err "Failed to parse membership name: membership name cannot be empty")
  else
    match membershipMatchL (jsTrim name).data with
    | some (p, l, m) => .ok ⟨String.mk p, String.mk l, String.mk m⟩
    | none =>
      .error (.err ("Failed to parse membership name \"" ++ jsTrim name ++
        "\": invalid pattern. Should be of form projects/PROJECT_ID/locations/LOCATION/gkeMemberships/MEMBERSHIP_NAME or projects/PROJECT_ID/locations/LOCATION/memberships/MEMBERSHIP_NAME"))

/-! ### The cluster client

The client's `#projectID` and `#location` are optional strings; JS
truthiness makes the empty string behave like an unset value, so they are
modelled as plain strings with `""` for "unset". -/

/-- First-occurrence split: `splitFirst pat s = some (pre, post)` when
`s = pre ++ pat ++ post` at the leftmost occurrence of `pat`. -/
def splitFirst (pat : List Char) : List Char → Option (List Char × List Char)
  | [] => if pat.isPrefixOf ([] : List Char) then some ([], []) else none
  | c :: cs =>
    if pat.isPrefixOf (c :: cs) then some ([], (c :: cs).drop pat.length)
    else (splitFirst pat cs).map (fun pr => (c :: pr.1, pr.2))

/-- JS `String.prototype.includes`. -/
def includesStr (s pat : String) : Bool := (splitFirst pat.data s.data).isSome

/-- JS `String.prototype.replace` with a string pattern and empty
replacement: remove the first occurrence only. -/
def replaceFirstEmpty (s pat : String) : String :=
  match splitFirst pat.data s.data with
  | some (pre, post) => String.mk (pre ++ post)
  | none => s

/-- `ClusterClient.getResource` (client.ts lines 222-249): trim; empty
fails; a slashed name must match the cluster pattern and is returned
verbatim; a bare name needs the client's project ID and location. -/
def getResource (projectID location : String) (name : String) : Except JsError String :=
  let n := jsTrim name
  if n.data.isEmpty then
    .error (.err "Failed to parse cluster name: name cannot be empty")
  else if hasSlash n.data then
    if (clusterMatchL n.data).isSome then .ok n
    else .error (.err ("Invalid cluster name \"" ++ n ++ "\""))
  else if projectID = "" then
    .error (.err "Failed to get project ID to build cluster name. Try setting \"project_id\".")
  else if location = "" then
    .error
      (.err "Failed to get location (region/zone) to build cluster name. Try setting \"location\".")
  else
    .ok ("projects/" ++ projectID ++ "/locations/" ++ location ++ "/clusters/" ++ n)

/-- `ClusterClient.getToken` (client.ts lines 183-191): `raw` is what
`auth.getAccessToken()` resolved to (`none` for `null`/`undefined`);
any falsy value is rejected. -/
def getToken (raw : Option String) : Except JsError String :=
  match raw with
  | none => .error (.err "Failed to generate token.")
  | some t => if t = "" then .error (.err "Failed to generate token.") else .ok t

/-- The response processing inside `ClusterClient.projectIDtoNum`
(client.ts lines 257-274), applied to the `name` field of the
resource-manager response: strip the first `projects/` occurrence and
require that `projects/` occurs and that the remainder is non-empty. -/
def projectRefToNum (projectRef : String) : Except JsError String :=
  let projectNum := replaceFirstEmpty projectRef "projects/"
  if !includesStr projectRef "projects/" || projectNum = "" then
    .error
      (.err ("Failed to parse project number: expected format projects/PROJECT_NUMBER. Got " ++
        projectRef))
  else
    .ok projectNum

/-- A GKE Hub membership (client.ts lines 527-537). -/
structure HubMembershipGkeCluster where
  resourceLink : String
deriving DecidableEq, Repr

/-- The optional endpoint descriptor of a Hub membership. -/
structure HubMembershipEndpoint where
  gkeCluster : Option HubMembershipGkeCluster
deriving DecidableEq, Repr

/-- A single Hub membership record. -/
structure HubMembership where
  name : String
  description : String
  uniqueId : String
  endpoint : Option HubMembershipEndpoint
deriving DecidableEq, Repr

/-- The zero-match error message of `discoverClusterMembership`.  The
literal text around `Found none` is split into separate append operands
(the concatenated value is identical to the source's template
literals). -/
def foundNoneMsg (clusterName projectID : String) : String :=
  "Expected one membership for " ++ clusterName ++ " in " ++ projectID ++ ". " ++
  "Found none" ++
  ". Verify membership by running `gcloud container fleet memberships list --project " ++
  projectID ++ "`"

/-- The multiple-match error message of `discoverClusterMembership`;
the membership names are joined with `,` exactly as `Array.join(',')`
does.  Literal text is split around `Found multiple`, with the same
concatenated value as the source's template literals. -/
def foundMultipleMsg (clusterName projectID : String) (ms : List HubMembership) : String :=
  "Expected one membership for " ++ clusterName ++ " in " ++ projectID ++ ". " ++
  "Found multiple" ++ " memberships " ++ String.intercalate "," (ms.map (fun m => m.name)) ++
  ". Provide an explicit membership via `fleet_membership` input."

/-- `ClusterClient.discoverClusterMembership` (client.ts lines 318-351).
The network call is abstracted: `resources?` is the `resources` field of
the Hub list response, `none` when the field is absent.  The function
first resolves the cluster resource (which can fail), then requires a
project ID, then disambiguates the membership list. -/
def discoverClusterMembership (projectID location : String) (clusterName : String)
    (resources? : Option (List HubMembership)) : Except JsError String :=
  match getResource projectID location clusterName with
  | .error e => .error e
  | .ok _ =>
    if projectID = "" then
      .error
        (.err "Failed to get project ID for cluster membership discovery. Try setting \"project_id\".")
    else
      match resources? with
      | none => .error (.err (foundNoneMsg clusterName projectID))
      | some [] => .error (.err (foundNoneMsg clusterName projectID))
      | some [m] => .ok m.name
      | some ms => .error (.err (foundMultipleMsg clusterName projectID ms))

/-! ### Kubeconfig synthesis -/

/-- The runtime shape of the `masterAuth` field. -/
structure MasterAuthJson where
  clusterCaCertificate : Option String
deriving DecidableEq, Repr

/-- The runtime shape of the `privateClusterConfig` field. -/
structure PrivateClusterConfigJson where
  privateEndpoint : Option String
deriving DecidableEq, Repr

/-- The runtime shape of the `dnsEndpointConfig` field. -/
structure DnsEndpointConfigJson where
  endpoint : Option String
deriving DecidableEq, Repr

/-- The runtime shape of the `controlPlaneEndpointsConfig` field. -/
structure ControlPlaneEndpointsConfigJson where
  dnsEndpointConfig : Option DnsEndpointConfigJson
deriving DecidableEq, Repr

/-- The cluster-metadata response (`ClusterResponse`, client.ts lines
496-510).  The TypeScript type declares every field as present, but the
actual JSON payload may omit any of them, so every field is an `Option`;
the declared type corresponds to the `wellTyped` predicate below. -/
structure ClusterJson where
  name : Option String
  endpoint : Option String
  masterAuth : Option MasterAuthJson
  privateClusterConfig : Option PrivateClusterConfigJson
  controlPlaneEndpointsConfig : Option ControlPlaneEndpointsConfigJson
deriving DecidableEq, Repr

/-- A cluster payload that conforms to the declared `ClusterResponse`
TypeScript type: every declared field is present. -/
def ClusterJson.wellTyped (c : ClusterJson) : Bool :=
  c.name.isSome && c.endpoint.isSome &&
  (match c.masterAuth with
   | some ma => ma.clusterCaCertificate.isSome
   | none => false) &&
  (match c.privateClusterConfig with
   | some pcc => pcc.privateEndpoint.isSome
   | none => false) &&
  (match c.controlPlaneEndpointsConfig with
   | some cc =>
     match cc.dnsEndpointConfig with
     | some dc => dc.endpoint.isSome
     | none => false
   | none => false)

/-- `CreateKubeConfigOptions` (client.ts lines 453-477).  The
`namespace` input is called `ns` here because `namespace` is a Lean
keyword. -/
structure CreateKubeConfigOptions where
  useAuthProvider : Bool
  useInternalIP : Bool
  useDNSBasedEndpoint : Bool
  clusterData : ClusterJson
  connectGWEndpoint : Option String
  contextName : String
  ns : Option String
deriving DecidableEq, Repr

/-- `presence` from actions-utils: trim, and return `undefined` for an
empty result. -/
def presence (s : Option String) : Option String :=
  let t := jsTrim (s.getD "")
  if t = "" then none else some t

/-- The endpoint-selection sequence of `createKubeConfig` (client.ts
lines 377-388): start from `cluster.endpoint`, overwrite with the
trimmed connect-gateway endpoint, then with
`privateClusterConfig.privateEndpoint` when `useInternalIP`, then with
`controlPlaneEndpointsConfig.dnsEndpointConfig.endpoint` when
`useDNSBasedEndpoint`.  Reading a property of an absent object is a
runtime `TypeError`. -/
def resolveEndpoint (opts : CreateKubeConfigOptions) : Except JsError (Option String) :=
  let e1 : Option String :=
    match presence opts.connectGWEndpoint with
    | some g => some g
    | none => opts.clusterData.endpoint
  let e2res : Except JsError (Option String) :=
    if opts.useInternalIP then
      match opts.clusterData.privateClusterConfig with
      | none => .error (.typeError "Cannot read properties of undefined (reading 'privateEndpoint')")
      | some pcc => .ok pcc.privateEndpoint
    else .ok e1
  match e2res with
  | .error e => .error e
  | .ok e2 =>
    if opts.useDNSBasedEndpoint then
      match opts.clusterData.controlPlaneEndpointsConfig with
      | none =>
        .error (.typeError "Cannot read properties of undefined (reading 'dnsEndpointConfig')")
      | some cc =>
        match cc.dnsEndpointConfig with
        | none => .error (.typeError "Cannot read properties of undefined (reading 'endpoint')")
        | some dc => .ok dc.endpoint
    else .ok e2

/-- The resolved endpoint together with the `useCACert` flag (client.ts
lines 390-396).  The JS `||` chain short-circuits, so
`endpoint.endsWith('gke.goog')` (a `TypeError` when the endpoint is
`undefined`) is only evaluated when there is no connect-gateway endpoint
and `useDNSBasedEndpoint` is false. -/
def endpointAndCACert (opts : CreateKubeConfigOptions) :
    Except JsError (Option String × Bool) :=
  match resolveEndpoint opts with
  | .error e => .error e
  | .ok endpoint =>
    if (presence opts.connectGWEndpoint).isSome || opts.useDNSBasedEndpoint then
      .ok (endpoint, false)
    else
      match endpoint with
      | none => .error (.typeError "Cannot read properties of undefined (reading 'endsWith')")
      | some s => .ok (endpoint, !(s.endsWith "gke.goog"))

/-- The user authentication stanza: at most one of `token` /
`auth-provider` is populated. -/
structure KubeUserAuth where
  token : Option String
  authProviderName : Option String
deriving DecidableEq, Repr

/-- The inner `cluster` object of a kubeconfig `clusters` entry.  The
`certificate-authority-data` key is `none` both when the spread is
skipped (`useCACert` false) and when its value is `undefined` (absent
`masterAuth`), because YAML serialization drops `undefined` entries. -/
structure KubeClusterInner where
  certificateAuthorityData : Option String
  server : String
deriving DecidableEq, Repr

/-- A kubeconfig `clusters` entry. -/
structure KubeClusterEntry where
  cluster : KubeClusterInner
  name : Option String
deriving DecidableEq, Repr

/-- The inner `context` object of a kubeconfig `contexts` entry. -/
structure KubeContextInner where
  cluster : Option String
  user : Option String
  ns : Option String
deriving DecidableEq, Repr

/-- A kubeconfig `contexts` entry. -/
structure KubeContextEntry where
  context : KubeContextInner
  name : String
deriving DecidableEq, Repr

/-- A kubeconfig `users` entry. -/
structure KubeUserEntry where
  name : Option String
  user : KubeUserAuth
deriving DecidableEq, Repr

/-- The synthesized kubeconfig document (`KubeConfig`, client.ts lines
479-494). -/
structure KubeConfigDoc where
  apiVersion : String
  clusters : List KubeClusterEntry
  contexts : List KubeContextEntry
  currentContext : String
  kind : String
  users : List KubeUserEntry
deriving DecidableEq, Repr

/-- `ClusterClient.createKubeConfig` (client.ts lines 374-433).
`tokenRaw` is what `auth.getAccessToken()` resolves to; the source calls
`this.getToken()` unconditionally (line 398) before choosing the auth
stanza.  A `JsError` result is a thrown exception; the YAML
serialization itself is total and therefore not modelled. -/
def createKubeConfig (opts : CreateKubeConfigOptions) (tokenRaw : Option String) :
    Except JsError KubeConfigDoc :=
  match endpointAndCACert opts with
  | .error e => .error e
  | .ok (endpoint, useCA) =>
    match getToken tokenRaw with
    | .error e => .error e
    | .ok tok =>
      let cluster := opts.clusterData
      let ca : Option String :=
        if useCA then cluster.masterAuth.bind (fun ma => ma.clusterCaCertificate) else none
      let serverStr : String :=
        "https://" ++ (match endpoint with
          | some s => s
          | none => "undefined")
      let auth : KubeUserAuth :=
        if opts.useAuthProvider then ⟨none, some "gcp"⟩ else ⟨some tok, none⟩
      .ok
        { apiVersion := "v1"
          clusters := [⟨⟨ca, serverStr⟩, cluster.name⟩]
          contexts := [⟨⟨cluster.name, cluster.name, opts.ns⟩, opts.contextName⟩]
          currentContext := opts.contextName
          kind := "Config"
          users := [⟨cluster.name, auth⟩] }

/-- How many times `createKubeConfig` invokes `getToken`: line 398 runs
unconditionally once the endpoint/CA phase has not thrown, regardless of
`useAuthProvider`. -/
def getTokenCallCount (opts : CreateKubeConfigOptions) : Nat :=
  match endpointAndCACert opts with
  | .error _ => 0
  | .ok _ => 1

/-! ### Helper lemmas about the synthesis pipeline -/

/-- With a connect-gateway endpoint and both IP-mode flags off, the
gateway endpoint is the resolved endpoint. -/
theorem resolveEndpoint_cgw {opts : CreateKubeConfigOptions} {g : String}
    (hg : presence opts.connectGWEndpoint = some g)
    (hI : opts.useInternalIP = false) (hD : opts.useDNSBasedEndpoint = false) :
    resolveEndpoint opts = .ok (some g) := by
  unfold resolveEndpoint
  rw [hg, hI, hD]
  simp

/-- With a connect-gateway endpoint, the CA cert is disabled whenever
endpoint resolution succeeds. -/
theorem endpointAndCACert_cgw {opts : CreateKubeConfigOptions} {g : String} {e : Option String}
    (hg : presence opts.connectGWEndpoint = some g)
    (hre : resolveEndpoint opts = .ok e) :
    endpointAndCACert opts = .ok (e, false) := by
  unfold endpointAndCACert
  rw [hre, hg]
  simp

/-! ### Claim C1 -/

/-- Claim C1, counterexample: with `connectGWEndpoint = "gw-ep"` and
`useInternalIP = true`, the synthesized server is the private endpoint,
not `https://gw-ep`, because the `useInternalIP` assignment runs after
the gateway assignment. -/
theorem c1_counterexample :
    ∃ doc, createKubeConfig
      ⟨false, true, false,
        ⟨some "c", some "pub-ep", some ⟨some "CA"⟩, some ⟨some "priv-ep"⟩,
          some ⟨some ⟨some "dns-ep"⟩⟩⟩,
        some "gw-ep", "ctx", none⟩
      (some "tok") = Except.ok doc ∧
    doc.clusters.map (fun c => c.cluster.server) = ["https://priv-ep"] ∧
    "https://priv-ep" ≠ "https://" ++ "gw-ep" := by
  exact ⟨_, rfl, by decide, by decide⟩

/-- Claim C1, amended: when a connect-gateway endpoint is supplied
(non-empty after trimming) and both `useInternalIP` and
`useDNSBasedEndpoint` are false, the server is `https://` followed by
the trimmed gateway endpoint and no `certificate-authority-data` is
present; and whenever a connect-gateway endpoint is supplied, any
successfully produced document has no `certificate-authority-data`
(but `useInternalIP` / `useDNSBasedEndpoint` do override the server). -/
theorem c1_amended :
    (∀ opts tokenRaw g tok,
      presence opts.connectGWEndpoint = some g →
      opts.useInternalIP = false →
      opts.useDNSBasedEndpoint = false →
      getToken tokenRaw = .ok tok →
      ∃ doc, createKubeConfig opts tokenRaw = .ok doc ∧
        doc.clusters.map (fun c => c.cluster.server) = ["https://" ++ g] ∧
        doc.clusters.map (fun c => c.cluster.certificateAuthorityData) = [none]) ∧
    (∀ opts tokenRaw g doc,
      presence opts.connectGWEndpoint = some g →
      createKubeConfig opts tokenRaw = .ok doc →
      doc.clusters.map (fun c => c.cluster.certificateAuthorityData) = [none]) := by
  constructor
  · intro opts tokenRaw g tok hg hI hD htok
    have hca := endpointAndCACert_cgw hg (resolveEndpoint_cgw hg hI hD)
    unfold createKubeConfig
    rw [hca, htok]
    exact ⟨_, rfl, by simp, by simp⟩
  · intro opts tokenRaw g doc hg hdoc
    unfold createKubeConfig at hdoc
    rcases hre : resolveEndpoint opts with e | e
    · unfold endpointAndCACert at hdoc
      rw [hre] at hdoc
      exact absurd hdoc (by simp)
    · rw [endpointAndCACert_cgw hg hre] at hdoc
      rcases htok : getToken tokenRaw with e' | tok
      · rw [htok] at hdoc; exact absurd hdoc (by simp)
      · rw [htok] at hdoc
        simp only [Except.ok.injEq] at hdoc
        subst hdoc
        simp

/-- Claim C1, witness for the amended theorem: both conjuncts applied at
concrete inputs. -/
theorem c1_amended_witness :
    (∃ doc, createKubeConfig
      ⟨false, false, false,
        ⟨some "c", some "pub-ep", some ⟨some "CA"⟩, some ⟨some "priv-ep"⟩,
          some ⟨some ⟨some "dns-ep"⟩⟩⟩,
        some "gw-ep", "ctx", none⟩ (some "tok") = .ok doc ∧
      doc.clusters.map (fun c => c.cluster.server) = ["https://" ++ "gw-ep"] ∧
      doc.clusters.map (fun c => c.cluster.certificateAuthorityData) = [none]) ∧
    (KubeConfigDoc.clusters
        { apiVersion := "v1"
          clusters := [⟨⟨none, "https://priv-ep"⟩, some "c"⟩]
          contexts := [⟨⟨some "c", some "c", none⟩, "ctx"⟩]
          currentContext := "ctx"
          kind := "Config"
          users := [⟨some "c", ⟨some "tok", none⟩⟩] }).map
      (fun c => c.cluster.certificateAuthorityData) = [none] := by
  constructor
  · exact c1_amended.1
      ⟨false, false, false,
        ⟨some "c", some "pub-ep", some ⟨some "CA"⟩, some ⟨some "priv-ep"⟩,
          some ⟨some ⟨some "dns-ep"⟩⟩⟩,
        some "gw-ep", "ctx", none⟩ (some "tok") "gw-ep" "tok" (by decide) rfl rfl (by decide)
  · exact c1_amended.2
      ⟨false, true, false,
        ⟨some "c", some "pub-ep", some ⟨some "CA"⟩, some ⟨some "priv-ep"⟩,
          some ⟨some ⟨some "dns-ep"⟩⟩⟩,
        some "gw-ep", "ctx", none⟩ (some "tok") "gw-ep" _ (by decide) (by decide)

/-! ### Claim C3 -/

/-- Claim C3: every successfully produced document has exactly one user
whose auth stanza carries exactly one of `token` / `auth-provider`;
`useAuthProvider` selects the `gcp` auth-provider form, otherwise the
minted bearer token is embedded. -/
theorem c3_user_auth_exclusive :
    ∀ opts tokenRaw doc,
      createKubeConfig opts tokenRaw = .ok doc →
      ∃ u, doc.users = [u] ∧
        ¬(u.user.token.isSome = true ∧ u.user.authProviderName.isSome = true) ∧
        ¬(u.user.token = none ∧ u.user.authProviderName = none) ∧
        (opts.useAuthProvider = true →
          u.user.authProviderName = some "gcp" ∧ u.user.token = none) ∧
        (opts.useAuthProvider = false →
          ∃ t, getToken tokenRaw = .ok t ∧
            u.user.token = some t ∧ u.user.authProviderName = none) := by
  intro opts tokenRaw doc hdoc
  unfold createKubeConfig at hdoc
  rcases hca : endpointAndCACert opts with e | ⟨endpoint, useCA⟩
  · rw [hca] at hdoc; exact absurd hdoc (by simp)
  · rw [hca] at hdoc
    rcases htok : getToken tokenRaw with e' | tok
    · rw [htok] at hdoc; exact absurd hdoc (by simp)
    · rw [htok] at hdoc
      simp only [Except.ok.injEq] at hdoc
      subst hdoc
      rcases hap : opts.useAuthProvider with _ | _
      · refine ⟨⟨opts.clusterData.name, ⟨some tok, none⟩⟩, by simp [hap], by simp, by simp,
          ?_, ?_⟩
        · intro h; exact absurd h (by simp [hap])
        · intro _; exact ⟨tok, htok ▸ rfl, rfl, rfl⟩
      · refine ⟨⟨opts.clusterData.name, ⟨none, some "gcp"⟩⟩, by simp [hap], by simp, by simp,
          ?_, ?_⟩
        · intro _; exact ⟨rfl, rfl⟩
        · intro h; exact absurd h (by simp [hap])

/-- Claim C3, witness. -/
theorem c3_user_auth_exclusive_witness :
    ∃ u, (KubeConfigDoc.users
        { apiVersion := "v1"
          clusters := [⟨⟨some "CA", "https://pub-ep"⟩, some "c"⟩]
          contexts := [⟨⟨some "c", some "c", none⟩, "ctx"⟩]
          currentContext := "ctx"
          kind := "Config"
          users := [⟨some "c", ⟨some "tok", none⟩⟩] }) = [u] ∧
      ¬(u.user.token.isSome = true ∧ u.user.authProviderName.isSome = true) ∧
      ¬(u.user.token = none ∧ u.user.authProviderName = none) ∧
      ((false : Bool) = true → u.user.authProviderName = some "gcp" ∧ u.user.token = none) ∧
      ((false : Bool) = false →
        ∃ t, getToken (some "tok") = .ok t ∧
          u.user.token = some t ∧ u.user.authProviderName = none) := by
  exact c3_user_auth_exclusive
    ⟨false, false, false,
      ⟨some "c", some "pub-ep", some ⟨some "CA"⟩, some ⟨some "priv-ep"⟩,
        some ⟨some ⟨some "dns-ep"⟩⟩⟩,
      none, "ctx", none⟩
    (some "tok") _ (by decide)

/-! ### Claim C4 -/

/-- Claim C4, counterexample: with `useAuthProvider = true` the source
still calls `getToken` (client.ts line 398 is unconditional), so the
call count is 1, not 0. -/
theorem c4_counterexample :
    getTokenCallCount
      ⟨true, false, false,
        ⟨some "c", some "pub-ep", some ⟨some "CA"⟩, some ⟨some "priv-ep"⟩,
          some ⟨some ⟨some "dns-ep"⟩⟩⟩,
        none, "ctx", none⟩ = 1 ∧ (1 : Nat) ≠ 0 := by
  decide

/-- Claim C4, amended: the auth stanza is chosen by `useAuthProvider`
exactly as claimed, but `getToken` is invoked exactly once in every run
that passes the endpoint/CA phase, regardless of `useAuthProvider`; the
minted token is simply discarded when the auth-provider stanza is
emitted. -/
theorem c4_amended :
    (∀ opts, (endpointAndCACert opts).isOk = true → getTokenCallCount opts = 1) ∧
    (∀ opts tokenRaw doc,
      createKubeConfig opts tokenRaw = .ok doc →
      ∃ u, doc.users = [u] ∧
        (opts.useAuthProvider = true → u.user = ⟨none, some "gcp"⟩) ∧
        (opts.useAuthProvider = false →
          ∃ t, getToken tokenRaw = .ok t ∧ u.user = ⟨some t, none⟩)) := by
  constructor
  · intro opts h
    unfold getTokenCallCount
    cases hca : endpointAndCACert opts with
    | error e => rw [hca] at h; exact absurd h (by simp [Except.isOk, Except.toBool])
    | ok v => rfl
  · intro opts tokenRaw doc hdoc
    unfold createKubeConfig at hdoc
    rcases hca : endpointAndCACert opts with e | ⟨endpoint, useCA⟩
    · rw [hca] at hdoc; exact absurd hdoc (by simp)
    · rw [hca] at hdoc
      rcases htok : getToken tokenRaw with e' | tok
      · rw [htok] at hdoc; exact absurd hdoc (by simp)
      · rw [htok] at hdoc
        simp only [Except.ok.injEq] at hdoc
        subst hdoc
        rcases hap : opts.useAuthProvider with _ | _
        · refine ⟨⟨opts.clusterData.name, ⟨some tok, none⟩⟩, by simp [hap], ?_, ?_⟩
          · intro h; exact absurd h (by simp [hap])
          · intro _; exact ⟨tok, htok ▸ rfl, rfl⟩
        · refine ⟨⟨opts.clusterData.name, ⟨none, some "gcp"⟩⟩, by simp [hap], ?_, ?_⟩
          · intro _; rfl
          · intro h; exact absurd h (by simp [hap])

/-- Claim C4, witness for the amended theorem. -/
theorem c4_amended_witness :
    getTokenCallCount
      ⟨true, false, false,
        ⟨some "c", some "pub-ep", some ⟨some "CA"⟩, some ⟨some "priv-ep"⟩,
          some ⟨some ⟨some "dns-ep"⟩⟩⟩,
        none, "ctx", none⟩ = 1 ∧
    (∃ u, (KubeConfigDoc.users
        { apiVersion := "v1"
          clusters := [⟨⟨some "CA", "https://pub-ep"⟩, some "c"⟩]
          contexts := [⟨⟨some "c", some "c", none⟩, "ctx"⟩]
          currentContext := "ctx"
          kind := "Config"
          users := [⟨some "c", ⟨none, some "gcp"⟩⟩] }) = [u] ∧
      ((true : Bool) = true → u.user = ⟨none, some "gcp"⟩) ∧
      ((true : Bool) = false →
        ∃ t, getToken (some "tok") = .ok t ∧ u.user = ⟨some t, none⟩)) := by
  constructor
  · exact c4_amended.1
      ⟨true, false, false,
        ⟨some "c", some "pub-ep", some ⟨some "CA"⟩, some ⟨some "priv-ep"⟩,
          some ⟨some ⟨some "dns-ep"⟩⟩⟩,
        none, "ctx", none⟩ (by decide)
  · exact c4_amended.2
      ⟨true, false, false,
        ⟨some "c", some "pub-ep", some ⟨some "CA"⟩, some ⟨some "priv-ep"⟩,
          some ⟨some ⟨some "dns-ep"⟩⟩⟩,
        none, "ctx", none⟩ (some "tok") _ (by decide)

/-! ### Claim C9 -/

/-- Claim C9: when `useInternalIP` and `useDNSBasedEndpoint` are both
true, the DNS-based endpoint silently wins (the assignments run in
sequence and the DNS assignment is last), and no CA data is embedded. -/
theorem c9_dns_overrides_internal :
    ∀ opts tokenRaw pcc cc dc de tok,
      opts.useInternalIP = true →
      opts.useDNSBasedEndpoint = true →
      opts.clusterData.privateClusterConfig = some pcc →
      opts.clusterData.controlPlaneEndpointsConfig = some cc →
      cc.dnsEndpointConfig = some dc →
      dc.endpoint = some de →
      getToken tokenRaw = .ok tok →
      ∃ doc, createKubeConfig opts tokenRaw = .ok doc ∧
        doc.clusters.map (fun c => c.cluster.server) = ["https://" ++ de] ∧
        doc.clusters.map (fun c => c.cluster.certificateAuthorityData) = [none] := by
  intro opts tokenRaw pcc cc dc de tok hI hD hpcc hcc hdc hde htok
  have hre : resolveEndpoint opts = .ok (some de) := by
    unfold resolveEndpoint
    simp [hI, hD, hpcc, hcc, hdc, hde]
  have hca : endpointAndCACert opts = .ok (some de, false) := by
    unfold endpointAndCACert
    rw [hre, hD]
    simp
  unfold createKubeConfig
  rw [hca, htok]
  exact ⟨_, rfl, by simp, by simp⟩

/-- Claim C9, witness. -/
theorem c9_dns_overrides_internal_witness :
    ∃ doc, createKubeConfig
      ⟨false, true, true,
        ⟨some "c", some "pub-ep", some ⟨some "CA"⟩, some ⟨some "priv-ep"⟩,
          some ⟨some ⟨some "x.gke.goog"⟩⟩⟩,
        none, "ctx", none⟩ (some "tok") = .ok doc ∧
      doc.clusters.map (fun c => c.cluster.server) = ["https://" ++ "x.gke.goog"] ∧
      doc.clusters.map (fun c => c.cluster.certificateAuthorityData) = [none] := by
  exact c9_dns_overrides_internal
    ⟨false, true, true,
      ⟨some "c", some "pub-ep", some ⟨some "CA"⟩, some ⟨some "priv-ep"⟩,
        some ⟨some ⟨some "x.gke.goog"⟩⟩⟩,
      none, "ctx", none⟩ (some "tok")
    ⟨some "priv-ep"⟩ ⟨some ⟨some "x.gke.goog"⟩⟩ ⟨some "x.gke.goog"⟩ "x.gke.goog" "tok"
    rfl rfl rfl rfl rfl rfl (by decide)

/-! ### Claim C10 -/

/-- Error propagation: a failing endpoint resolution is the thrown
exception of the whole `createKubeConfig` call. -/
theorem createKubeConfig_error_of_resolve {opts : CreateKubeConfigOptions} {e : JsError}
    (h : resolveEndpoint opts = .error e) (tokenRaw : Option String) :
    createKubeConfig opts tokenRaw = .error e := by
  unfold createKubeConfig endpointAndCACert
  rw [h]

/-- Claim C10: `createKubeConfig` dereferences
`privateClusterConfig.privateEndpoint` (resp.
`controlPlaneEndpointsConfig.dnsEndpointConfig.endpoint`) without a
presence guard, so a cluster payload lacking those objects produces a
runtime `TypeError`, not a clean configuration error. -/
theorem c10_unguarded_dereference :
    (∀ opts tokenRaw, opts.useInternalIP = true →
      opts.clusterData.privateClusterConfig = none →
      createKubeConfig opts tokenRaw =
        .error (.typeError "Cannot read properties of undefined (reading 'privateEndpoint')")) ∧
    (∀ opts tokenRaw, opts.useInternalIP = false → opts.useDNSBasedEndpoint = true →
      opts.clusterData.controlPlaneEndpointsConfig = none →
      createKubeConfig opts tokenRaw =
        .error (.typeError "Cannot read properties of undefined (reading 'dnsEndpointConfig')")) ∧
    (∀ opts tokenRaw cc, opts.useInternalIP = false → opts.useDNSBasedEndpoint = true →
      opts.clusterData.controlPlaneEndpointsConfig = some cc →
      cc.dnsEndpointConfig = none →
      createKubeConfig opts tokenRaw =
        .error (.typeError "Cannot read properties of undefined (reading 'endpoint')")) := by
  refine ⟨?_, ?_, ?_⟩
  · intro opts tokenRaw hI hpcc
    refine createKubeConfig_error_of_resolve ?_ tokenRaw
    unfold resolveEndpoint
    simp [hI, hpcc]
  · intro opts tokenRaw hI hD hcc
    refine createKubeConfig_error_of_resolve ?_ tokenRaw
    unfold resolveEndpoint
    simp [hI, hD, hcc]
  · intro opts tokenRaw cc hI hD hcc hdc
    refine createKubeConfig_error_of_resolve ?_ tokenRaw
    unfold resolveEndpoint
    simp [hI, hD, hcc, hdc]

/-- Claim C10, witness: all three dereference failures at concrete
inputs. -/
theorem c10_unguarded_dereference_witness :
    createKubeConfig
      ⟨false, true, false, ⟨some "c", some "pub-ep", some ⟨some "CA"⟩, none, none⟩,
        none, "ctx", none⟩ (some "tok") =
      .error (.typeError "Cannot read properties of undefined (reading 'privateEndpoint')") ∧
    createKubeConfig
      ⟨false, false, true, ⟨some "c", some "pub-ep", some ⟨some "CA"⟩, none, none⟩,
        none, "ctx", none⟩ (some "tok") =
      .error (.typeError "Cannot read properties of undefined (reading 'dnsEndpointConfig')") ∧
    createKubeConfig
      ⟨false, false, true, ⟨some "c", some "pub-ep", some ⟨some "CA"⟩, none, some ⟨none⟩⟩,
        none, "ctx", none⟩ (some "tok") =
      .error (.typeError "Cannot read properties of undefined (reading 'endpoint')") := by
  refine ⟨?_, ?_, ?_⟩
  · exact c10_unguarded_dereference.1
      ⟨false, true, false, ⟨some "c", some "pub-ep", some ⟨some "CA"⟩, none, none⟩,
        none, "ctx", none⟩ (some "tok") rfl rfl
  · exact c10_unguarded_dereference.2.1
      ⟨false, false, true, ⟨some "c", some "pub-ep", some ⟨some "CA"⟩, none, none⟩,
        none, "ctx", none⟩ (some "tok") rfl rfl rfl
  · exact c10_unguarded_dereference.2.2
      ⟨false, false, true, ⟨some "c", some "pub-ep", some ⟨some "CA"⟩, none, some ⟨none⟩⟩,
        none, "ctx", none⟩ (some "tok") ⟨none⟩ rfl rfl rfl rfl

/-! ### Claim C2 -/

/-- Claim C2: for payloads conforming to the declared `ClusterResponse`
type, synthesis succeeds and the `certificate-authority-data` key is
present iff there is no connect-gateway endpoint, `useDNSBasedEndpoint`
is false and the resolved endpoint does not end in `gke.goog`. -/
theorem c2_ca_certificate_iff :
    ∀ opts tokenRaw tok,
      ClusterJson.wellTyped opts.clusterData = true →
      getToken tokenRaw = .ok tok →
      ∃ doc e, createKubeConfig opts tokenRaw = .ok doc ∧
        resolveEndpoint opts = .ok (some e) ∧
        (doc.clusters.map (fun c => c.cluster.certificateAuthorityData.isSome) = [true] ↔
          (presence opts.connectGWEndpoint = none ∧ opts.useDNSBasedEndpoint = false ∧
           e.endsWith "gke.goog" = false)) := by
  intro opts tokenRaw tok hwt htok
  rcases hep : opts.clusterData.endpoint with _ | ep
  · exfalso; unfold ClusterJson.wellTyped at hwt; rw [hep] at hwt; simp at hwt
  rcases hma : opts.clusterData.masterAuth with _ | ma
  · exfalso; unfold ClusterJson.wellTyped at hwt; rw [hma] at hwt; simp at hwt
  rcases hcert : ma.clusterCaCertificate with _ | cert
  · exfalso; unfold ClusterJson.wellTyped at hwt; rw [hma] at hwt; simp [hcert] at hwt
  rcases hpcc : opts.clusterData.privateClusterConfig with _ | pcc
  · exfalso; unfold ClusterJson.wellTyped at hwt; rw [hpcc] at hwt; simp at hwt
  rcases hpe : pcc.privateEndpoint with _ | pe
  · exfalso; unfold ClusterJson.wellTyped at hwt; rw [hpcc] at hwt; simp [hpe] at hwt
  rcases hcc : opts.clusterData.controlPlaneEndpointsConfig with _ | cc
  · exfalso; unfold ClusterJson.wellTyped at hwt; rw [hcc] at hwt; simp at hwt
  rcases hdc : cc.dnsEndpointConfig with _ | dc
  · exfalso; unfold ClusterJson.wellTyped at hwt; rw [hcc] at hwt; simp [hdc] at hwt
  rcases hde : dc.endpoint with _ | de
  · exfalso; unfold ClusterJson.wellTyped at hwt; rw [hcc] at hwt; simp [hdc, hde] at hwt
  have hre2 : ∃ e, resolveEndpoint opts = .ok (some e) := by
    unfold resolveEndpoint
    rcases hgw0 : presence opts.connectGWEndpoint with _ | g <;>
      rcases hI : opts.useInternalIP with _ | _ <;>
        rcases hD : opts.useDNSBasedEndpoint with _ | _ <;>
          simp [hpcc, hpe, hcc, hdc, hde, hep]
  obtain ⟨e, hre⟩ := hre2
  by_cases hsel : ((presence opts.connectGWEndpoint).isSome || opts.useDNSBasedEndpoint) = true
  · have hca : endpointAndCACert opts = .ok (some e, false) := by
      unfold endpointAndCACert
      rw [hre]
      simp [hsel]
    have hck : createKubeConfig opts tokenRaw = .ok
        ⟨"v1", [⟨⟨none, "https://" ++ e⟩, opts.clusterData.name⟩],
          [⟨⟨opts.clusterData.name, opts.clusterData.name, opts.ns⟩, opts.contextName⟩],
          opts.contextName, "Config",
          [⟨opts.clusterData.name,
            if opts.useAuthProvider = true then ⟨none, some "gcp"⟩ else ⟨some tok, none⟩⟩]⟩ := by
      unfold createKubeConfig
      rw [hca, htok]
      simp
    refine ⟨_, e, hck, hre, ?_, ?_⟩
    · intro h; exact absurd h (by simp)
    · rintro ⟨hgw, hD, _⟩
      rw [hgw, hD] at hsel
      simp at hsel
  · have hgw : presence opts.connectGWEndpoint = none := by
      rcases h : presence opts.connectGWEndpoint with _ | g
      · rfl
      · rw [h] at hsel; simp at hsel
    have hD : opts.useDNSBasedEndpoint = false := by
      rcases h : opts.useDNSBasedEndpoint with _ | _
      · rfl
      · rw [h] at hsel; simp at hsel
    have hca : endpointAndCACert opts = .ok (some e, !(e.endsWith "gke.goog")) := by
      unfold endpointAndCACert
      rw [hre, hgw, hD]
      simp
    have hck : createKubeConfig opts tokenRaw = .ok
        ⟨"v1",
          [⟨⟨if (!(e.endsWith "gke.goog")) = true then some cert else none, "https://" ++ e⟩,
            opts.clusterData.name⟩],
          [⟨⟨opts.clusterData.name, opts.clusterData.name, opts.ns⟩, opts.contextName⟩],
          opts.contextName, "Config",
          [⟨opts.clusterData.name,
            if opts.useAuthProvider = true then ⟨none, some "gcp"⟩ else ⟨some tok, none⟩⟩]⟩ := by
      unfold createKubeConfig
      rw [hca, htok]
      simp [hma, hcert]
    refine ⟨_, e, hck, hre, ?_, ?_⟩
    · intro h
      refine ⟨hgw, hD, ?_⟩
      rcases hend : e.endsWith "gke.goog" with _ | _
      · rfl
      · rw [hend] at h; simp at h
    · rintro ⟨_, _, hend⟩
      simp [hend]

/-- Claim C2, witness: a public well-typed cluster with no gateway gets
the CA certificate. -/
theorem c2_ca_certificate_iff_witness :
    ∃ doc e, createKubeConfig
      ⟨false, false, false,
        ⟨some "c", some "pub-ep", some ⟨some "CA"⟩, some ⟨some "priv-ep"⟩,
          some ⟨some ⟨some "x.gke.goog"⟩⟩⟩,
        none, "ctx", none⟩ (some "tok") = .ok doc ∧
      resolveEndpoint
        ⟨false, false, false,
          ⟨some "c", some "pub-ep", some ⟨some "CA"⟩, some ⟨some "priv-ep"⟩,
            some ⟨some ⟨some "x.gke.goog"⟩⟩⟩,
          none, "ctx", none⟩ = .ok (some e) ∧
      (doc.clusters.map (fun c => c.cluster.certificateAuthorityData.isSome) = [true] ↔
        (presence (none : Option String) = none ∧ (false : Bool) = false ∧
         e.endsWith "gke.goog" = false)) := by
  exact c2_ca_certificate_iff
    ⟨false, false, false,
      ⟨some "c", some "pub-ep", some ⟨some "CA"⟩, some ⟨some "priv-ep"⟩,
        some ⟨some ⟨some "x.gke.goog"⟩⟩⟩,
      none, "ctx", none⟩ (some "tok") "tok" (by decide) (by decide)

/-! ### Claim C5 -/

/-- `(s ++ t).data` unfolds to list append. -/
theorem data_append (s t : String) : (s ++ t).data = s.data ++ t.data := rfl

/-- `core` occurs somewhere inside `s` (substring containment, stated
over character lists). -/
def occursIn (core s : String) : Prop :=
  ∃ a b : List Char, s.data = a ++ core.data ++ b

/-- A string occurs in itself. -/
theorem occursIn_refl (core : String) : occursIn core core :=
  ⟨[], [], by simp⟩

/-- Occurrence is preserved by appending on the right. -/
theorem occursIn_append_left {core s : String} (t : String) (h : occursIn core s) :
    occursIn core (s ++ t) := by
  obtain ⟨a, b, hab⟩ := h
  exact ⟨a, b ++ t.data, by rw [data_append, hab]; simp⟩

/-- Occurrence is preserved by appending on the left. -/
theorem occursIn_append_right {core t : String} (s : String) (h : occursIn core t) :
    occursIn core (s ++ t) := by
  obtain ⟨a, b, hab⟩ := h
  exact ⟨s.data ++ a, b, by rw [data_append, hab]; simp⟩

/-- Claim C5: given one listed membership the resolver returns its name;
given zero (or an absent `resources` field) it fails with a message
containing `Found none`, the cluster name and the project ID; given two
or more it fails with a message containing `Found multiple` and all
names joined by commas. -/
theorem c5_membership_disambiguation :
    ∀ projectID location clusterName,
      (getResource projectID location clusterName).isOk = true →
      projectID ≠ "" →
      ((∀ m, discoverClusterMembership projectID location clusterName (some [m]) = .ok m.name) ∧
       (∀ r, r = none ∨ r = some ([] : List HubMembership) →
         ∃ msg, discoverClusterMembership projectID location clusterName r =
             .error (.err msg) ∧
           occursIn "Found none" msg ∧ occursIn clusterName msg ∧ occursIn projectID msg) ∧
       (∀ m1 m2 rest, ∃ msg,
         discoverClusterMembership projectID location clusterName (some (m1 :: m2 :: rest)) =
           .error (.err msg) ∧
         occursIn "Found multiple" msg ∧
         occursIn (String.intercalate "," ((m1 :: m2 :: rest).map (fun m => m.name))) msg)) := by
  intro pid loc cn hres hpid
  have hok : ∃ r, getResource pid loc cn = .ok r := by
    rcases h : getResource pid loc cn with e | r
    · rw [h] at hres; simp [Except.isOk, Except.toBool] at hres
    · exact ⟨r, rfl⟩
  obtain ⟨r, hok⟩ := hok
  have hnone : occursIn "Found none" (foundNoneMsg cn pid) := by
    unfold foundNoneMsg
    exact occursIn_append_left _ (occursIn_append_left _ (occursIn_append_left _
      (occursIn_append_right _ (occursIn_refl _))))
  have hcn : occursIn cn (foundNoneMsg cn pid) := by
    unfold foundNoneMsg
    exact occursIn_append_left _ (occursIn_append_left _ (occursIn_append_left _
      (occursIn_append_left _ (occursIn_append_left _ (occursIn_append_left _
        (occursIn_append_left _ (occursIn_append_right _ (occursIn_refl _))))))))
  have hpidocc : occursIn pid (foundNoneMsg cn pid) := by
    unfold foundNoneMsg
    exact occursIn_append_left _ (occursIn_append_right _ (occursIn_refl _))
  refine ⟨?_, ?_, ?_⟩
  · intro m
    unfold discoverClusterMembership
    rw [hok]
    simp [hpid]
  · intro r' hr'
    rcases hr' with h | h <;> subst h <;>
      refine ⟨foundNoneMsg cn pid, ?_, hnone, hcn, hpidocc⟩ <;>
      · unfold discoverClusterMembership
        rw [hok]
        simp [hpid]
  · intro m1 m2 rest
    refine ⟨foundMultipleMsg cn pid (m1 :: m2 :: rest), ?_, ?_, ?_⟩
    · unfold discoverClusterMembership
      rw [hok]
      simp [hpid]
    · unfold foundMultipleMsg
      exact occursIn_append_left _ (occursIn_append_left _ (occursIn_append_left _
        (occursIn_append_right _ (occursIn_refl _))))
    · unfold foundMultipleMsg
      exact occursIn_append_left _ (occursIn_append_right _ (occursIn_refl _))

/-- Claim C5, witness: all three outcomes at concrete inputs. -/
theorem c5_membership_disambiguation_witness :
    ((∀ m, discoverClusterMembership "p" "l" "c" (some [m]) = .ok m.name) ∧
     (∀ r, r = none ∨ r = some ([] : List HubMembership) →
       ∃ msg, discoverClusterMembership "p" "l" "c" r = .error (.err msg) ∧
         occursIn "Found none" msg ∧ occursIn "c" msg ∧ occursIn "p" msg) ∧
     (∀ m1 m2 rest, ∃ msg,
       discoverClusterMembership "p" "l" "c" (some (m1 :: m2 :: rest)) = .error (.err msg) ∧
       occursIn "Found multiple" msg ∧
       occursIn (String.intercalate "," ((m1 :: m2 :: rest).map (fun m => m.name))) msg)) := by
  exact c5_membership_disambiguation "p" "l" "c" (by decide) (by decide)

/-! ### Claim C8 -/

/-- Claim C8, counterexample: a resource-manager `name` that does not
even start with `projects/` (so it is not of the form
`projects/<number>`) is still accepted, yielding a garbled project
number instead of a parse error. -/
theorem c8_counterexample :
    projectRefToNum "xprojects/123" = .ok "x123" ∧
    (("projects/").data.isPrefixOf ("xprojects/123").data) = false := by
  constructor
  · rfl
  · decide

/-- A list is a prefix of itself followed by anything. -/
theorem isPrefixOf_self_append (l r : List Char) : l.isPrefixOf (l ++ r) = true := by
  induction l with
  | nil => simp [List.isPrefixOf]
  | cons c cs ih => simp [List.isPrefixOf, ih]

/-- Splitting at the first occurrence of a pattern that sits at the very
front. -/
theorem splitFirst_self_append (c : Char) (cs r : List Char) :
    splitFirst (c :: cs) ((c :: cs) ++ r) = some ([], r) := by
  have h1 : (c :: cs).isPrefixOf ((c :: cs) ++ r) = true := isPrefixOf_self_append _ _
  rw [List.cons_append] at h1 ⊢
  rw [splitFirst.eq_2, if_pos h1]
  simp

/-- Claim C8, amended: the check only requires that `projects/` occurs
somewhere and that deleting its first occurrence leaves a non-empty
string; names of the form `projects/<suffix>` return the suffix (no
numeric check), names without the substring `projects/` fail with the
parse error, and the bare `projects/` fails. -/
theorem c8_amended :
    (∀ num : String, num ≠ "" → projectRefToNum ("projects/" ++ num) = .ok num) ∧
    (∀ ref : String, includesStr ref "projects/" = false →
      projectRefToNum ref =
        .error (.err ("Failed to parse project number: expected format projects/PROJECT_NUMBER. Got "
          ++ ref))) ∧
    projectRefToNum "projects/" =
      .error (.err "Failed to parse project number: expected format projects/PROJECT_NUMBER. Got projects/") := by
  refine ⟨?_, ?_, by decide⟩
  · intro num hnum
    have hsplit : splitFirst ("projects/").data (("projects/" ++ num)).data
        = some ([], num.data) := by
      rw [data_append]
      exact splitFirst_self_append 'p' ['r', 'o', 'j', 'e', 'c', 't', 's', '/'] num.data
    unfold projectRefToNum replaceFirstEmpty includesStr
    rw [hsplit]
    simp [hnum]
  · intro ref href
    unfold projectRefToNum
    rw [href]
    simp

/-! ### Machinery for the resource-name pattern claims (C6, C7)

The two patterns are anchored chains of case-insensitive literals and
greedy `(.+)` groups.  The lemmas below characterize the matcher on
inputs assembled from "plain" components (no `/`, no whitespace, no line
terminators): the greedy search finds exactly the intended split because
every longer candidate leaves a remainder on which the rest of the
pattern provably fails. -/

theorem ciEq_refl (c : Char) : ciEq c c = true := by simp [ciEq]

theorem lowerAscii_eq_slash {c : Char} (h : lowerAscii c = '/') : c = '/' := by
  unfold lowerAscii at h
  split at h <;> simp_all

theorem ciEq_to_slash {c : Char} (h : ciEq c '/' = true) : c = '/' := by
  unfold ciEq at h
  simp at h
  exact lowerAscii_eq_slash h

theorem ciEq_from_slash {c : Char} (h : ciEq '/' c = true) : c = '/' := by
  unfold ciEq at h
  simp at h
  exact lowerAscii_eq_slash h.symm

theorem ciEq_to_slash_false {c : Char} (h : c ≠ '/') : ciEq c '/' = false := by
  cases hc : ciEq c '/' with
  | false => rfl
  | true => exact absurd (ciEq_to_slash hc) h

theorem ciEq_from_slash_false {c : Char} (h : c ≠ '/') : ciEq '/' c = false := by
  cases hc : ciEq '/' c with
  | false => rfl
  | true => exact absurd (ciEq_from_slash hc) h

/-- Stripping a literal from itself followed by anything succeeds. -/
theorem ciStrip_self_append (lit r : List Char) : ciStrip lit (lit ++ r) = some r := by
  induction lit with
  | nil => rfl
  | cons c cs ih => simp [ciStrip, ciEq_refl, ih]

theorem hasSlash_cons {c : Char} {l : List Char} (h : hasSlash (c :: l) = false) :
    c ≠ '/' ∧ hasSlash l = false := by
  simp [hasSlash] at h ⊢
  exact h

theorem ne_slash_of_mem {l : List Char} (h : hasSlash l = false) {c : Char} (hc : c ∈ l) :
    c ≠ '/' := by
  simp [hasSlash] at h
  exact h c hc

theorem hasSlash_drop {l : List Char} (h : hasSlash l = false) (n : Nat) :
    hasSlash (l.drop n) = false := by
  simp [hasSlash] at h ⊢
  exact fun c hc => h c (List.mem_of_mem_drop hc)

/-- A literal starting with `/` never strips from an input starting with
another character. -/
theorem ciStrip_slash_head {c : Char} (ls cs : List Char) (h : c ≠ '/') :
    ciStrip ('/' :: ls) (c :: cs) = none := by
  simp [ciStrip, ciEq_to_slash_false h]

/-- A literal containing `/` never strips from a slash-free input. -/
theorem ciStrip_slash_lit {lit : List Char} (hmem : '/' ∈ lit) :
    ∀ {cs : List Char}, hasSlash cs = false → ciStrip lit cs = none := by
  induction lit with
  | nil => simp at hmem
  | cons x xs ih =>
    intro cs hcs
    cases cs with
    | nil => rfl
    | cons c cs' =>
      rcases List.mem_cons.mp hmem with hx | hx
      · subst hx
        exact ciStrip_slash_head _ _ (hasSlash_cons hcs).1
      · by_cases h : ciEq c x = true
        · simp [ciStrip, h]
          exact ih hx (hasSlash_cons hcs).2
        · simp [ciStrip, h]

/-- Walking a letters-then-slash literal along a slash-free group: the
strip either fails or consumes exactly up to the first `/` of the
input. -/
theorem ciStripWalk (lits : List Char) :
    ∀ (l tail : List Char), hasSlash l = false → (∀ c ∈ lits, c ≠ '/') →
    ciStrip (lits ++ ['/']) (l ++ '/' :: tail) = none ∨
    ciStrip (lits ++ ['/']) (l ++ '/' :: tail) = some tail := by
  induction lits with
  | nil =>
    intro l tail hl _
    cases l with
    | nil => right; simp [ciStrip, ciEq_refl]
    | cons c l' =>
      left
      simp only [List.nil_append, List.cons_append]
      exact ciStrip_slash_head _ _ (hasSlash_cons hl).1
  | cons x xs ih =>
    intro l tail hl hlits
    have hx : x ≠ '/' := hlits x (by simp)
    cases l with
    | nil =>
      left
      simp only [List.nil_append, List.cons_append]
      simp [ciStrip, ciEq_from_slash_false hx]
    | cons c l' =>
      by_cases h : ciEq c x = true
      · rcases ih l' tail (hasSlash_cons hl).2 (fun y hy => hlits y (by simp [hy])) with h1 | h1
        · left; simp [ciStrip, h, h1]
        · right; simp [ciStrip, h, h1]
      · left; simp [ciStrip, h]

/-! Greedy search characterization. -/

/-- If the continuation fails on every proper suffix, the greedy search
fails. -/
theorem greedyAux_none {α} {cs : List Char} {k : List Char → Option α}
    (hdead : ∀ d, 1 ≤ d → k (cs.drop d) = none) :
    ∀ n, greedyAux cs k n = none := by
  intro n
  induction n with
  | zero => rfl
  | succ n ih =>
    rw [greedyAux]
    rw [hdead (n + 1) (by omega)]
    split <;> exact ih

/-- If the continuation fails on every proper suffix, the greedy group
fails. -/
theorem greedy_none {α} {cs : List Char} {k : List Char → Option α}
    (hdead : ∀ d, 1 ≤ d → k (cs.drop d) = none) :
    greedy cs k = none :=
  greedyAux_none hdead _

/-- The greedy search returns exactly the split `x ++ r` when the
continuation succeeds on `r` but fails on every proper suffix of `r`:
every longer candidate group is rejected, and the first success is at
`x`. -/
theorem greedyAux_exact {α} {x r : List Char} {k : List Char → Option α} {b : α}
    (hxne : x ≠ []) (hxdot : dotStr x = true) (hk : k r = some b)
    (hdead : ∀ d, 1 ≤ d → k (r.drop d) = none) :
    ∀ n, x.length ≤ n → greedyAux (x ++ r) k n = some (x, b) := by
  intro n
  induction n with
  | zero =>
    intro hn
    exact absurd (List.eq_nil_of_length_eq_zero (by omega)) hxne
  | succ n ih =>
    intro hn
    by_cases heq : x.length = n + 1
    · rw [greedyAux, ← heq, List.take_left, List.drop_left, hxdot, hk]
      simp
    · have hlt : x.length ≤ n := by omega
      have hdrop : (x ++ r).drop (n + 1) = r.drop (n + 1 - x.length) := by
        rw [List.drop_append_eq_append_drop, List.drop_of_length_le (by omega)]
        simp
      have hkn : k ((x ++ r).drop (n + 1)) = none := by
        rw [hdrop]
        exact hdead _ (by omega)
      rw [greedyAux, hkn]
      split <;> exact ih hlt

/-- Greedy group characterization at the top length. -/
theorem greedy_exact {α} {x r : List Char} {k : List Char → Option α} {b : α}
    (hxne : x ≠ []) (hxdot : dotStr x = true) (hk : k r = some b)
    (hdead : ∀ d, 1 ≤ d → k (r.drop d) = none) :
    greedy (x ++ r) k = some (x, b) := by
  unfold greedy
  exact greedyAux_exact hxne hxdot hk hdead _ (by simp)

/-- Generic dead-suffix schema: if `F` fails on inputs with a non-slash
head, fails on `'/' :: W`, and fails on every suffix of `W`, then `F`
fails on every suffix of `letters ++ '/' :: W` (for slash-free
`letters`). -/
theorem dead_over_suffixes {β} (F : List Char → Option β) (letters W : List Char)
    (hlets : ∀ c ∈ letters, c ≠ '/')
    (hhead : ∀ c X, c ≠ '/' → F (c :: X) = none)
    (hbase : F ('/' :: W) = none)
    (hW : ∀ j, F (W.drop j) = none) :
    ∀ j, F ((letters ++ '/' :: W).drop j) = none := by
  induction letters with
  | nil =>
    intro j
    cases j with
    | zero => simpa using hbase
    | succ j' => simpa using hW j'
  | cons c lets ih =>
    intro j
    cases j with
    | zero =>
      have hc : c ≠ '/' := hlets c (by simp)
      simpa using hhead c _ hc
    | succ j' =>
      simpa using ih (fun y hy => hlets y (by simp [hy])) j'

theorem litLocations_eq : litLocations = '/' :: (letsLocations ++ ['/']) := rfl

theorem litClusters_eq : litClusters = '/' :: (letsClusters ++ ['/']) := rfl

theorem litMemberships_eq : litMemberships = '/' :: (letsMemberships ++ ['/']) := rfl

theorem litGkeMemberships_eq : litGkeMemberships = '/' :: (letsGkeMemberships ++ ['/']) := rfl

theorem ciStrip_head_ne {c l : Char} (ls cs : List Char) (h : ciEq c l = false) :
    ciStrip (l :: ls) (c :: cs) = none := by
  simp [ciStrip, h]

/-! Dead-suffix properties of the three pattern tails. -/

theorem clustersTail_head_dead : ∀ c X, c ≠ '/' → clustersTail (c :: X) = none := by
  intro c X h
  unfold clustersTail
  rw [litClusters_eq, ciStrip_slash_head _ _ h]
  rfl

theorem clustersTail_noslash {s : List Char} (hs : hasSlash s = false) :
    clustersTail s = none := by
  unfold clustersTail
  rw [ciStrip_slash_lit (by decide : '/' ∈ litClusters) hs]
  rfl

theorem clustersTail_slash_noslash (X : List Char) (hX : hasSlash X = false) :
    clustersTail ('/' :: X) = none := by
  unfold clustersTail
  rw [litClusters_eq]
  simp [ciStrip, ciEq_refl,
    ciStrip_slash_lit (show '/' ∈ letsClusters ++ ['/'] by decide) hX]

theorem collTail_head_dead : ∀ c X, c ≠ '/' → collTail (c :: X) = none := by
  intro c X h
  unfold collTail
  rw [litGkeMemberships_eq, litMemberships_eq, ciStrip_slash_head _ _ h,
    ciStrip_slash_head _ _ h]
  rfl

theorem collTail_noslash {s : List Char} (hs : hasSlash s = false) : collTail s = none := by
  unfold collTail
  rw [ciStrip_slash_lit (by decide : '/' ∈ litGkeMemberships) hs,
    ciStrip_slash_lit (by decide : '/' ∈ litMemberships) hs]
  rfl

theorem collTail_slash_noslash (X : List Char) (hX : hasSlash X = false) :
    collTail ('/' :: X) = none := by
  unfold collTail
  rw [litGkeMemberships_eq, litMemberships_eq]
  simp [ciStrip, ciEq_refl,
    ciStrip_slash_lit (show '/' ∈ letsGkeMemberships ++ ['/'] by decide) hX,
    ciStrip_slash_lit (show '/' ∈ letsMemberships ++ ['/'] by decide) hX]

theorem locTail_head_dead (T : List Char → Option (List Char)) :
    ∀ c X, c ≠ '/' → locTail T (c :: X) = none := by
  intro c X h
  unfold locTail
  rw [litLocations_eq, ciStrip_slash_head _ _ h]
  rfl

theorem locTail_noslash (T : List Char → Option (List Char)) {s : List Char}
    (hs : hasSlash s = false) : locTail T s = none := by
  unfold locTail
  rw [ciStrip_slash_lit (by decide : '/' ∈ litLocations) hs]
  rfl

theorem locTail_slash_noslash (T : List Char → Option (List Char)) (X : List Char)
    (hX : hasSlash X = false) : locTail T ('/' :: X) = none := by
  unfold locTail
  rw [litLocations_eq]
  simp [ciStrip, ciEq_refl,
    ciStrip_slash_lit (show '/' ∈ letsLocations ++ ['/'] by decide) hX]

/-! The inner tails fail on every proper suffix of `<literal> ++ m`. -/

theorem clustersTail_dead {m : List Char} (hm : hasSlash m = false) :
    ∀ d, 1 ≤ d → clustersTail ((litClusters ++ m).drop d) = none := by
  intro d hd
  have h1 : litClusters ++ m = '/' :: (letsClusters ++ '/' :: m) := by
    simp [litClusters, letsClusters]
  obtain ⟨d', rfl⟩ : ∃ d', d = d' + 1 := ⟨d - 1, by omega⟩
  rw [h1, List.drop_succ_cons]
  exact dead_over_suffixes clustersTail letsClusters m (by decide)
    clustersTail_head_dead (clustersTail_slash_noslash m hm)
    (fun j => clustersTail_noslash (hasSlash_drop hm j)) d'

theorem collTail_dead_memb {m : List Char} (hm : hasSlash m = false) :
    ∀ d, 1 ≤ d → collTail ((litMemberships ++ m).drop d) = none := by
  intro d hd
  have h1 : litMemberships ++ m = '/' :: (letsMemberships ++ '/' :: m) := by
    simp [litMemberships, letsMemberships]
  obtain ⟨d', rfl⟩ : ∃ d', d = d' + 1 := ⟨d - 1, by omega⟩
  rw [h1, List.drop_succ_cons]
  exact dead_over_suffixes collTail letsMemberships m (by decide)
    collTail_head_dead (collTail_slash_noslash m hm)
    (fun j => collTail_noslash (hasSlash_drop hm j)) d'

theorem collTail_dead_gke {m : List Char} (hm : hasSlash m = false) :
    ∀ d, 1 ≤ d → collTail ((litGkeMemberships ++ m).drop d) = none := by
  intro d hd
  have h1 : litGkeMemberships ++ m = '/' :: (letsGkeMemberships ++ '/' :: m) := by
    simp [litGkeMemberships, letsGkeMemberships]
  obtain ⟨d', rfl⟩ : ∃ d', d = d' + 1 := ⟨d - 1, by omega⟩
  rw [h1, List.drop_succ_cons]
  exact dead_over_suffixes collTail letsGkeMemberships m (by decide)
    collTail_head_dead (collTail_slash_noslash m hm)
    (fun j => collTail_noslash (hasSlash_drop hm j)) d'

/-- The `/locations/(.+)<T>` continuation fails on every proper suffix of
`/locations/ ++ l ++ '/' :: lets ++ '/' :: m` (the text after the
project group), given that `T` itself is dead on every suffix of
`lets ++ '/' :: m`. -/
theorem locTail_dead_full (T : List Char → Option (List Char)) (lets l m : List Char)
    (hl : hasSlash l = false) (hm : hasSlash m = false)
    (hlets : ∀ c ∈ lets, c ≠ '/')
    (hmismatch : ciStrip litLocations ('/' :: (lets ++ '/' :: m)) = none)
    (hTatW2 : ∀ j, T ((lets ++ '/' :: m).drop j) = none) :
    ∀ d, 1 ≤ d →
      locTail T ((litLocations ++ (l ++ '/' :: (lets ++ '/' :: m))).drop d) = none := by
  intro d hd
  have h1 : litLocations ++ (l ++ '/' :: (lets ++ '/' :: m)) =
      '/' :: (letsLocations ++ '/' :: (l ++ '/' :: (lets ++ '/' :: m))) := by
    simp [litLocations, letsLocations]
  obtain ⟨d', rfl⟩ : ∃ d', d = d' + 1 := ⟨d - 1, by omega⟩
  rw [h1, List.drop_succ_cons]
  have hW2 : ∀ j, locTail T ((lets ++ '/' :: m).drop j) = none :=
    dead_over_suffixes (locTail T) lets m hlets (locTail_head_dead T)
      (locTail_slash_noslash T m hm)
      (fun j => locTail_noslash T (hasSlash_drop hm j))
  have hB : ∀ j, locTail T ((l ++ '/' :: (lets ++ '/' :: m)).drop j) = none := by
    refine dead_over_suffixes (locTail T) l (lets ++ '/' :: m)
      (fun c hc => ne_slash_of_mem hl hc) (locTail_head_dead T) ?_ hW2
    unfold locTail
    rw [hmismatch]
    rfl
  refine dead_over_suffixes (locTail T) letsLocations (l ++ '/' :: (lets ++ '/' :: m))
    (by decide) (locTail_head_dead T) ?_ hB d'
  unfold locTail
  have hstep : ciStrip litLocations ('/' :: (l ++ '/' :: (lets ++ '/' :: m))) =
      ciStrip (letsLocations ++ ['/']) (l ++ '/' :: (lets ++ '/' :: m)) := by
    rw [litLocations_eq]
    simp [ciStrip, ciEq_refl]
  rcases ciStripWalk letsLocations l (lets ++ '/' :: m) hl (by decide) with hw | hw
  · rw [hstep, hw]
    rfl
  · rw [hstep, hw]
    show (greedy (lets ++ '/' :: m) T : Option (List Char × List Char)) = none
    exact greedy_none (fun e he => hTatW2 e)

/-! The inner tails succeed exactly at the intended split point. -/

theorem clustersTail_at {c' : List Char} (hne : c' ≠ []) (hdot : dotStr c' = true) :
    clustersTail (litClusters ++ c') = some c' := by
  unfold clustersTail
  rw [ciStrip_self_append]
  simp [matchTail, hne, hdot]

theorem collTail_at_memb {m : List Char} (hne : m ≠ []) (hdot : dotStr m = true) :
    collTail (litMemberships ++ m) = some m := by
  unfold collTail
  have h1 : ciStrip litGkeMemberships (litMemberships ++ m) = none := by
    simp [litGkeMemberships, litMemberships, ciStrip, ciEq, lowerAscii]
  rw [h1, ciStrip_self_append]
  simp [matchTail, hne, hdot]

theorem collTail_at_gke {m : List Char} (hne : m ≠ []) (hdot : dotStr m = true) :
    collTail (litGkeMemberships ++ m) = some m := by
  unfold collTail
  rw [ciStrip_self_append]
  simp [matchTail, hne, hdot]

/-! Plain components: no `/`, no JS whitespace, no line terminators.
For such components the assembled resource name is left unchanged by
trimming and matched at exactly the intended split. -/

/-- A character that is not `/`, not JS whitespace and acceptable to
`.`. -/
def plainChar (c : Char) : Bool := !(c = '/') && !(isJsWS c) && dotChar c

/-- All characters plain. -/
def plainL (l : List Char) : Bool := l.all plainChar

theorem plain_elim {c : Char} (h : plainChar c = true) :
    c ≠ '/' ∧ isJsWS c = false ∧ dotChar c = true := by
  unfold plainChar at h
  rw [Bool.and_eq_true, Bool.and_eq_true] at h
  refine ⟨?_, ?_, h.2⟩
  · intro hc; rw [hc] at h; simp at h
  · rcases h with ⟨⟨h1, h2⟩, h3⟩; simpa using h2

theorem noslash_of_plain {l : List Char} (h : plainL l = true) : hasSlash l = false := by
  simp only [plainL, List.all_eq_true] at h
  simp only [hasSlash, List.any_eq_false]
  intro c hc
  simp [(plain_elim (h c hc)).1]

theorem dot_of_plain {l : List Char} (h : plainL l = true) : dotStr l = true := by
  simp only [plainL, List.all_eq_true] at h
  simp only [dotStr, List.all_eq_true]
  intro c hc
  exact (plain_elim (h c hc)).2.2

theorem not_ws_of_plain {c : Char} (h : plainChar c = true) : isJsWS c = false :=
  (plain_elim h).2.1

/-- The last element of an all-`p` non-empty list. -/
theorem getLast?_all {p : Char → Bool} :
    ∀ {l : List Char}, l.all p = true → l ≠ [] → ∃ e, l.getLast? = some e ∧ p e = true := by
  intro l
  induction l with
  | nil => intro _ h; exact absurd rfl h
  | cons c cs ih =>
    intro hall _
    simp only [List.all_cons, Bool.and_eq_true] at hall
    cases cs with
    | nil => exact ⟨c, rfl, hall.1⟩
    | cons d ds =>
      obtain ⟨e, he, hpe⟩ := ih hall.2 (by simp)
      exact ⟨e, by rw [List.getLast?_cons_cons]; exact he, hpe⟩

/-- Dropping trailing whitespace is the identity when the last character
is not whitespace. -/
theorem dropTrailWS_eq_self {L : List Char} {e : Char} (he : L.getLast? = some e)
    (hwe : isJsWS e = false) : dropTrailWS L = L := by
  unfold dropTrailWS
  cases hrev : L.reverse with
  | nil =>
    have : L = [] := by simpa using congrArg List.reverse hrev
    subst this
    rfl
  | cons x tl =>
    have hx : x = e := by
      have h1 := List.head?_reverse L
      rw [hrev, he] at h1
      simpa using h1
    subst hx
    rw [List.dropWhile_cons, if_neg (by simp [hwe]), ← hrev, List.reverse_reverse]

/-- Trimming is the identity when the first and last characters are not
whitespace. -/
theorem trimL_eq_self {c : Char} {cs : List Char} (hc : isJsWS c = false)
    {e : Char} (he : (c :: cs).getLast? = some e) (hwe : isJsWS e = false) :
    trimL (c :: cs) = c :: cs := by
  unfold trimL dropLeadWS
  rw [List.dropWhile_cons, if_neg (by simp [hc])]
  exact dropTrailWS_eq_self he hwe

theorem data_projects : ("projects/" : String).data = litProjects := rfl

theorem data_locations : ("/locations/" : String).data = litLocations := rfl

theorem data_clusters : ("/clusters/" : String).data = litClusters := rfl

theorem data_memberships : ("/memberships/" : String).data = litMemberships := rfl

theorem data_gkeMemberships : ("/gkeMemberships/" : String).data = litGkeMemberships := rfl

/-- A slash-free input never matches the membership pattern. -/
theorem membershipMatchL_noslash {cs : List Char} (h : hasSlash cs = false) :
    membershipMatchL cs = none := by
  unfold membershipMatchL
  rw [ciStrip_slash_lit (by decide : '/' ∈ litProjects) h]

/-! The full positive-match lemmas: on an input assembled from plain
components, the greedy matcher returns exactly those components. -/

theorem membershipMatchL_at_memb {p l m : List Char}
    (hpne : p ≠ []) (hp : plainL p = true)
    (hlne : l ≠ []) (hl : plainL l = true)
    (hmne : m ≠ []) (hm : plainL m = true) :
    membershipMatchL (litProjects ++ (p ++ (litLocations ++ (l ++ (litMemberships ++ m)))))
      = some (p, l, m) := by
  unfold membershipMatchL
  rw [ciStrip_self_append]
  have hkR1 : locTail collTail (litLocations ++ (l ++ (litMemberships ++ m)))
      = some (l, m) := by
    unfold locTail
    rw [ciStrip_self_append]
    show greedy (l ++ (litMemberships ++ m)) collTail = some (l, m)
    exact greedy_exact hlne (dot_of_plain hl)
      (collTail_at_memb hmne (dot_of_plain hm)) (collTail_dead_memb (noslash_of_plain hm))
  have htdead : ∀ j, collTail ((letsMemberships ++ '/' :: m).drop j) = none := by
    intro j
    have h2 := collTail_dead_memb (noslash_of_plain hm) (j + 1) (by omega)
    rw [show litMemberships ++ m = '/' :: (letsMemberships ++ '/' :: m) by
      simp [litMemberships, letsMemberships], List.drop_succ_cons] at h2
    exact h2
  have hmis : ciStrip litLocations ('/' :: (letsMemberships ++ '/' :: m)) = none := by
    rw [litLocations_eq]
    simp [ciStrip, ciEq, lowerAscii, letsMemberships, letsLocations]
  have hdead1 : ∀ d, 1 ≤ d →
      locTail collTail ((litLocations ++ (l ++ (litMemberships ++ m))).drop d) = none := by
    have hshape : litLocations ++ (l ++ (litMemberships ++ m)) =
        litLocations ++ (l ++ '/' :: (letsMemberships ++ '/' :: m)) := by
      simp [litMemberships, letsMemberships]
    rw [hshape]
    exact locTail_dead_full collTail letsMemberships l m (noslash_of_plain hl)
      (noslash_of_plain hm) (by decide) hmis htdead
  have hg := greedy_exact hpne (dot_of_plain hp) hkR1 hdead1
  simp [hg]

theorem membershipMatchL_at_gke {p l m : List Char}
    (hpne : p ≠ []) (hp : plainL p = true)
    (hlne : l ≠ []) (hl : plainL l = true)
    (hmne : m ≠ []) (hm : plainL m = true) :
    membershipMatchL (litProjects ++ (p ++ (litLocations ++ (l ++ (litGkeMemberships ++ m)))))
      = some (p, l, m) := by
  unfold membershipMatchL
  rw [ciStrip_self_append]
  have hkR1 : locTail collTail (litLocations ++ (l ++ (litGkeMemberships ++ m)))
      = some (l, m) := by
    unfold locTail
    rw [ciStrip_self_append]
    show greedy (l ++ (litGkeMemberships ++ m)) collTail = some (l, m)
    exact greedy_exact hlne (dot_of_plain hl)
      (collTail_at_gke hmne (dot_of_plain hm)) (collTail_dead_gke (noslash_of_plain hm))
  have htdead : ∀ j, collTail ((letsGkeMemberships ++ '/' :: m).drop j) = none := by
    intro j
    have h2 := collTail_dead_gke (noslash_of_plain hm) (j + 1) (by omega)
    rw [show litGkeMemberships ++ m = '/' :: (letsGkeMemberships ++ '/' :: m) by
      simp [litGkeMemberships, letsGkeMemberships], List.drop_succ_cons] at h2
    exact h2
  have hmis : ciStrip litLocations ('/' :: (letsGkeMemberships ++ '/' :: m)) = none := by
    rw [litLocations_eq]
    simp [ciStrip, ciEq, lowerAscii, letsGkeMemberships, letsLocations]
  have hdead1 : ∀ d, 1 ≤ d →
      locTail collTail ((litLocations ++ (l ++ (litGkeMemberships ++ m))).drop d) = none := by
    have hshape : litLocations ++ (l ++ (litGkeMemberships ++ m)) =
        litLocations ++ (l ++ '/' :: (letsGkeMemberships ++ '/' :: m)) := by
      simp [litGkeMemberships, letsGkeMemberships]
    rw [hshape]
    exact locTail_dead_full collTail letsGkeMemberships l m (noslash_of_plain hl)
      (noslash_of_plain hm) (by decide) hmis htdead
  have hg := greedy_exact hpne (dot_of_plain hp) hkR1 hdead1
  simp [hg]

theorem clusterMatchL_at {p l c : List Char}
    (hpne : p ≠ []) (hp : plainL p = true)
    (hlne : l ≠ []) (hl : plainL l = true)
    (hcne : c ≠ []) (hc : plainL c = true) :
    clusterMatchL (litProjects ++ (p ++ (litLocations ++ (l ++ (litClusters ++ c)))))
      = some (p, l, c) := by
  unfold clusterMatchL
  rw [ciStrip_self_append]
  have hkR1 : locTail clustersTail (litLocations ++ (l ++ (litClusters ++ c)))
      = some (l, c) := by
    unfold locTail
    rw [ciStrip_self_append]
    show greedy (l ++ (litClusters ++ c)) clustersTail = some (l, c)
    exact greedy_exact hlne (dot_of_plain hl)
      (clustersTail_at hcne (dot_of_plain hc)) (clustersTail_dead (noslash_of_plain hc))
  have htdead : ∀ j, clustersTail ((letsClusters ++ '/' :: c).drop j) = none := by
    intro j
    have h2 := clustersTail_dead (noslash_of_plain hc) (j + 1) (by omega)
    rw [show litClusters ++ c = '/' :: (letsClusters ++ '/' :: c) by
      simp [litClusters, letsClusters], List.drop_succ_cons] at h2
    exact h2
  have hmis : ciStrip litLocations ('/' :: (letsClusters ++ '/' :: c)) = none := by
    rw [litLocations_eq]
    simp [ciStrip, ciEq, lowerAscii, letsClusters, letsLocations]
  have hdead1 : ∀ d, 1 ≤ d →
      locTail clustersTail ((litLocations ++ (l ++ (litClusters ++ c))).drop d) = none := by
    have hshape : litLocations ++ (l ++ (litClusters ++ c)) =
        litLocations ++ (l ++ '/' :: (letsClusters ++ '/' :: c)) := by
      simp [litClusters, letsClusters]
    rw [hshape]
    exact locTail_dead_full clustersTail letsClusters l c (noslash_of_plain hl)
      (noslash_of_plain hc) (by decide) hmis htdead
  have hg := greedy_exact hpne (dot_of_plain hp) hkR1 hdead1
  simp [hg]

/-! Top-level glue for the parser claims. -/

theorem data_ne_nil {s : String} (h : s ≠ "") : s.data ≠ [] := by
  intro hd
  apply h
  cases s with
  | mk d =>
    simp at hd
    rw [hd]

/-- Trimming an assembled resource name whose first and last characters
are not whitespace is the identity. -/
theorem jsTrim_eq_self_of {S : String} {L : List Char} (hdata : S.data = L)
    {c : Char} (hhead : L.head? = some c) (hc : isJsWS c = false)
    {e : Char} (he : L.getLast? = some e) (hwe : isJsWS e = false) :
    jsTrim S = S := by
  cases L with
  | nil => simp at hhead
  | cons a t =>
    have hac : a = c := by simpa using hhead
    subst hac
    unfold jsTrim
    rw [hdata, trimL_eq_self hc he hwe, ← hdata]

/-- The last character of an assembled name is the last character of its
final plain component. -/
theorem getLast?_name5 {A B C p l m : List Char} {e : Char}
    (hme : m.getLast? = some e) (hmne : m ≠ []) :
    (A ++ (p ++ (B ++ (l ++ (C ++ m))))).getLast? = some e := by
  rw [List.getLast?_append_of_ne_nil _ (by simp [hmne]),
    List.getLast?_append_of_ne_nil _ (by simp [hmne]),
    List.getLast?_append_of_ne_nil _ (by simp [hmne]),
    List.getLast?_append_of_ne_nil _ (by simp [hmne]),
    List.getLast?_append_of_ne_nil _ hmne, hme]

/-- Claim C8, amended theorem witness. -/
theorem c8_amended_witness :
    projectRefToNum ("projects/" ++ "123456") = .ok "123456" ∧
    projectRefToNum "foo" =
      .error (.err ("Failed to parse project number: expected format projects/PROJECT_NUMBER. Got "
        ++ "foo")) := by
  constructor
  · exact c8_amended.1 "123456" (by decide)
  · exact c8_amended.2.1 "foo" (by decide)

/-! ### Claim C6 -/

theorem isEmpty_false_of_ne_nil {α} {l : List α} (h : l ≠ []) : l.isEmpty = false := by
  cases l with
  | nil => exact absurd rfl h
  | cons a t => rfl

/-- Claim C6, counterexample: a padded slash-free input is non-empty and
contains no `/`, but the parser returns the trimmed id, not the input
itself. -/
theorem c6_counterexample :
    parseResourceName " my-cluster " = .ok ⟨"", "", "my-cluster"⟩ ∧
    (" my-cluster " : String) ≠ "" ∧
    hasSlash (" my-cluster " : String).data = false ∧
    ("my-cluster" : String) ≠ " my-cluster " := by
  refine ⟨by decide, by decide, by decide, by decide⟩

/-- Claim C6, amended: `parseResourceName` is total with four cases, with
the bare-name case returning the *trimmed* input as the id; the pattern
case is witnessed for all assemblies from plain components (no slash, no
whitespace, no line terminators) and matching is the source regex
(greedy, case-insensitive). -/
theorem c6_amended :
    (∀ s : String, jsTrim s = "" →
      parseResourceName s =
        .error (.err "Failed to parse cluster name: value is the empty string")) ∧
    (∀ s : String, jsTrim s ≠ "" → hasSlash (jsTrim s).data = false →
      parseResourceName s = .ok ⟨"", "", jsTrim s⟩) ∧
    (∀ p l c : String,
      p.data ≠ [] → plainL p.data = true →
      l.data ≠ [] → plainL l.data = true →
      c.data ≠ [] → plainL c.data = true →
      parseResourceName ("projects/" ++ p ++ "/locations/" ++ l ++ "/clusters/" ++ c)
        = .ok ⟨p, l, c⟩) ∧
    (∀ s : String, jsTrim s ≠ "" → hasSlash (jsTrim s).data = true →
      clusterMatchL (jsTrim s).data = none →
      parseResourceName s =
        .error (.err ("Failed to parse cluster name \"" ++ jsTrim s ++ "\": invalid pattern"))) := by
  refine ⟨?_, ?_, ?_, ?_⟩
  · intro s h
    unfold parseResourceName
    rw [h]
    rfl
  · intro s hne hs
    unfold parseResourceName
    rw [if_neg (by simp [isEmpty_false_of_ne_nil (data_ne_nil hne)])]
    rw [if_pos (by simp [hs])]
  · intro p l c hpne hp hlne hl hcne hc
    obtain ⟨e, heC, hpe⟩ := getLast?_all hc hcne
    have hwe : isJsWS e = false := not_ws_of_plain hpe
    have hdata : ("projects/" ++ p ++ "/locations/" ++ l ++ "/clusters/" ++ c).data
        = litProjects ++ (p.data ++ (litLocations ++ (l.data ++ (litClusters ++ c.data)))) := by
      simp [data_append, data_projects, data_locations, data_clusters, litProjects, litLocations, litClusters, List.append_assoc]
    have hlast : (litProjects ++
          (p.data ++ (litLocations ++ (l.data ++ (litClusters ++ c.data))))).getLast?
        = some e :=
      getLast?_name5 heC hcne
    have htrim := jsTrim_eq_self_of hdata (show _ = some 'p' from rfl) (by decide) hlast hwe
    unfold parseResourceName
    rw [htrim, hdata]
    rw [clusterMatchL_at hpne hp hlne hl hcne hc]
    rw [if_neg (by simp [litProjects])]
    rw [if_neg (by simp [hasSlash, litProjects])]
  · intro s hne hs hmatch
    unfold parseResourceName
    rw [if_neg (by simp [isEmpty_false_of_ne_nil (data_ne_nil hne)])]
    rw [if_neg (by simp [hs]), hmatch]

/-- Claim C6, witness: all four cases of the amended theorem at concrete
inputs. -/
theorem c6_amended_witness :
    parseResourceName "  " =
      .error (.err "Failed to parse cluster name: value is the empty string") ∧
    parseResourceName "my-cluster" = .ok ⟨"", "", jsTrim "my-cluster"⟩ ∧
    parseResourceName ("projects/" ++ "p1" ++ "/locations/" ++ "l1" ++ "/clusters/" ++ "c1")
      = .ok ⟨"p1", "l1", "c1"⟩ ∧
    parseResourceName "projects/p/locations" =
      .error
        (.err ("Failed to parse cluster name \"" ++ jsTrim "projects/p/locations" ++
          "\": invalid pattern")) := by
  refine ⟨?_, ?_, ?_, ?_⟩
  · exact c6_amended.1 "  " (by decide)
  · exact c6_amended.2.1 "my-cluster" (by decide) (by decide)
  · exact c6_amended.2.2.1 "p1" "l1" "c1" (by decide) (by decide) (by decide) (by decide)
      (by decide) (by decide)
  · exact c6_amended.2.2.2 "projects/p/locations" (by decide) (by decide) (by decide)

/-! ### Claim C7 -/

/-- Claim C7, counterexample: the string below is of the form
`projects/P/locations/L/memberships/M` with `P = "a"`, `L = "l"`,
`M = "x/memberships/b"`, yet the greedy match regroups it, so the parse
does not return `{a, l, x/memberships/b}`. -/
theorem c7_counterexample :
    ("projects/a/locations/l/memberships/x/memberships/b" : String)
      = "projects/" ++ "a" ++ "/locations/" ++ "l" ++ "/memberships/" ++ "x/memberships/b" ∧
    parseMembershipName "projects/a/locations/l/memberships/x/memberships/b"
      = .ok ⟨"a", "l/memberships/x", "b"⟩ ∧
    (MembershipName.mk "a" "l/memberships/x" "b") ≠ ⟨"a", "l", "x/memberships/b"⟩ := by
  refine ⟨by decide, by decide, by decide⟩

/-- Claim C7, amended: for plain components (no `/`, no whitespace, no
line terminators) both collection spellings parse to the identical
`{P, L, M}`; any input that is slash-free after trimming (in particular
every bare name) fails. -/
theorem c7_amended :
    (∀ p l m : String,
      p.data ≠ [] → plainL p.data = true →
      l.data ≠ [] → plainL l.data = true →
      m.data ≠ [] → plainL m.data = true →
      parseMembershipName ("projects/" ++ p ++ "/locations/" ++ l ++ "/memberships/" ++ m)
          = .ok ⟨p, l, m⟩ ∧
      parseMembershipName ("projects/" ++ p ++ "/locations/" ++ l ++ "/gkeMemberships/" ++ m)
          = .ok ⟨p, l, m⟩) ∧
    (∀ s : String, hasSlash (jsTrim s).data = false →
      ∃ msg, parseMembershipName s = .error (.err msg)) := by
  constructor
  · intro p l m hpne hp hlne hl hmne hm
    obtain ⟨e, heM, hpe⟩ := getLast?_all hm hmne
    have hwe : isJsWS e = false := not_ws_of_plain hpe
    constructor
    · have hdata : ("projects/" ++ p ++ "/locations/" ++ l ++ "/memberships/" ++ m).data
          = litProjects ++ (p.data ++ (litLocations ++ (l.data ++ (litMemberships ++ m.data)))) := by
        simp [data_append, data_projects, data_locations, data_memberships, litProjects, litLocations, litMemberships, List.append_assoc]
      have hlast : (litProjects ++
            (p.data ++ (litLocations ++ (l.data ++ (litMemberships ++ m.data))))).getLast?
          = some e :=
        getLast?_name5 heM hmne
      have htrim := jsTrim_eq_self_of hdata (show _ = some 'p' from rfl) (by decide) hlast hwe
      unfold parseMembershipName
      rw [htrim, hdata]
      rw [membershipMatchL_at_memb hpne hp hlne hl hmne hm]
      rw [if_neg (by simp [litProjects])]
    · have hdata : ("projects/" ++ p ++ "/locations/" ++ l ++ "/gkeMemberships/" ++ m).data
          = litProjects ++
            (p.data ++ (litLocations ++ (l.data ++ (litGkeMemberships ++ m.data)))) := by
        simp [data_append, data_projects, data_locations, data_gkeMemberships, litProjects, litLocations, litGkeMemberships, List.append_assoc]
      have hlast : (litProjects ++
            (p.data ++ (litLocations ++ (l.data ++ (litGkeMemberships ++ m.data))))).getLast?
          = some e :=
        getLast?_name5 heM hmne
      have htrim := jsTrim_eq_self_of hdata (show _ = some 'p' from rfl) (by decide) hlast hwe
      unfold parseMembershipName
      rw [htrim, hdata]
      rw [membershipMatchL_at_gke hpne hp hlne hl hmne hm]
      rw [if_neg (by simp [litProjects])]
  · intro s hs
    by_cases he : (jsTrim s).data.isEmpty = true
    · refine ⟨"Failed to parse membership name: membership name cannot be empty", ?_⟩
      unfold parseMembershipName
      rw [if_pos he]
    · refine ⟨"Failed to parse membership name \"" ++ jsTrim s ++
        "\": invalid pattern. Should be of form projects/PROJECT_ID/locations/LOCATION/gkeMemberships/MEMBERSHIP_NAME or projects/PROJECT_ID/locations/LOCATION/memberships/MEMBERSHIP_NAME", ?_⟩
      unfold parseMembershipName
      rw [if_neg he, membershipMatchL_noslash hs]

/-- Claim C7, witness: both spellings at concrete plain components, and a
bare name failing. -/
theorem c7_amended_witness :
    (parseMembershipName
        ("projects/" ++ "my-proj" ++ "/locations/" ++ "us-central1" ++ "/memberships/" ++ "mb1")
        = .ok ⟨"my-proj", "us-central1", "mb1"⟩ ∧
     parseMembershipName
        ("projects/" ++ "my-proj" ++ "/locations/" ++ "us-central1" ++ "/gkeMemberships/" ++ "mb1")
        = .ok ⟨"my-proj", "us-central1", "mb1"⟩) ∧
    (∃ msg, parseMembershipName "my-membership" = .error (.err msg)) := by
  constructor
  · exact c7_amended.1 "my-proj" "us-central1" "mb1" (by decide) (by decide) (by decide)
      (by decide) (by decide) (by decide)
  · exact c7_amended.2 "my-membership" (by decide)

end GKE
